import Mathlib

/-!
Verification of the chat-event batching core of the whisp17 repository.

The Python source is shallowly embedded as pure Lean functions:

* Python dicts become association lists (`alistGet`, `alistSet`, `alistRemove`);
  dict keys are unique in Python, so removing every entry with a key is the
  same as removing the single entry with that key.
* `src/rag_it1/logic_editor.py` (`RoundRobinQueueManager`) becomes the
  fairness-queue functions over `FQState`; the two JSON files
  (`user_queue.json`, `edit_mode.json`) become the two association lists of
  the state, and each whole-file read-modify-write becomes state threading.
* `src/message_store.py`, `src/timer_manager.py`, `src/message_recovery.py`
  and `src/slack_handler.py` are embedded further below over `MessageStore`,
  `TimerState` and `SysState`; wall-clock reads (`time.time()`) become an
  explicit `now : Rat` argument, and Slack web-API calls become explicit
  inputs (a fetched history is an `Option (List HistMessage)`, where `none`
  models a failed call, and posted replies accumulate in a `posted` list).
-/

/-- Lookup in an association list (Python `dict.get`). -/
def alistGet {κ β : Type} [DecidableEq κ] : List (κ × β) → κ → Option β
  | [], _ => none
  | (k', v) :: rest, k => if k' = k then some v else alistGet rest k

/-- Update/insert in an association list (Python `d[k] = v`): the existing
entry is replaced in place, a new key is appended (dict insertion order). -/
def alistSet {κ β : Type} [DecidableEq κ] : List (κ × β) → κ → β → List (κ × β)
  | [], k, v => [(k, v)]
  | (k', v') :: rest, k, v =>
      if k' = k then (k, v) :: rest else (k', v') :: alistSet rest k v

/-- Deletion from an association list (Python `del d[k]` / `d.pop(k)`).
Python dict keys are unique, so filtering out every entry with the key is a
faithful model of removing the entry. -/
def alistRemove {κ β : Type} [DecidableEq κ] (l : List (κ × β)) (k : κ) : List (κ × β) :=
  l.filter (fun p => decide (¬ p.1 = k))

/-- Python `str.strip()`: drop leading and trailing whitespace. -/
def pyStrip (s : String) : String :=
  ⟨((s.data.dropWhile Char.isWhitespace).reverse.dropWhile Char.isWhitespace).reverse⟩

/-- Set-like insertion used to model Python `set.add` on an
insertion-ordered view of the set. -/
def insertUnique (l : List String) (x : String) : List String :=
  if x ∈ l then l else l ++ [x]

/-! ## Fairness queue: `RoundRobinQueueManager` (src/rag_it1/logic_editor.py)

State of the two persisted JSON documents.  The per-user edit-mode document
stores the value of the "free" field when the user's record has one; a user
absent from the list models a record without the "free" field. -/

structure FQState where
  userQueues : List (String × List String)
  editMode : List (String × Bool)
deriving DecidableEq

/-- Result of `process_user_requests`: final persisted state, the returned
`current_processing` dict, and the messages pushed through
`slack_handler._post_response(user_id, None, message)` in the conflict
branch. -/
structure SubmitResult where
  state : FQState
  currentProcessing : List (String × String)
  posted : List (String × String)
deriving DecidableEq

/-- `get_user_queue_status(...)["pending_requests"]`. -/
def pendingRequests (st : FQState) (u : String) : List String :=
  (alistGet st.userQueues u).getD []

/-- `get_user_queue_status(...)["is_free"]` (`user_status.get("free", True)`). -/
def isFree (st : FQState) (u : String) : Bool :=
  (alistGet st.editMode u).getD true

/-- The conversational conflict message built in `process_user_requests`
when the user already has pending jobs. -/
def conflictMessage (pending : List String) : String :=
  let header := "Hey! You have " ++ toString pending.length ++ " job request(s) pending:\n"
  let listing := ((pending.take 3).enum.map
      (fun p => toString (p.1 + 1) ++ ". " ++ p.2.take 50 ++ "...\n")).foldl (· ++ ·) ""
  header ++ listing ++ "\n🤔 What would you like to do?\n"
    ++ "• Continue with pending requests\n"
    ++ "• Discard them and start fresh\n"
    ++ "• Process them all together"

/-- Tail of one loop iteration of `process_user_requests` past the busy
check: first request goes to `current_processing`, the remainder is written
to the queue file (the user's key is dropped when nothing remains). -/
def proceedDispatch (acc : SubmitResult) (u : String) (requests : List String) : SubmitResult :=
  match requests with
  | [] => acc
  | r :: rest =>
      let queues :=
        if rest ≠ [] then alistSet acc.state.userQueues u rest
        else alistRemove acc.state.userQueues u
      { state := { acc.state with userQueues := queues },
        currentProcessing := alistSet acc.currentProcessing u r,
        posted := acc.posted }

/-- One iteration of the `for user_id, requests in user_requests.items()`
loop of `process_user_requests` (`hasHandler` models the truthiness of the
`slack_handler` argument). -/
def processOneUser (hasHandler : Bool) (acc : SubmitResult) (u : String)
    (requests : List String) : SubmitResult :=
  if requests = [] then acc
  else
    let pending := pendingRequests acc.state u
    if pending.length > 0 ∧ hasHandler = true then
      { acc with posted := acc.posted ++ [(u, conflictMessage pending)] }
    else
      match alistGet acc.state.editMode u with
      | none =>
          proceedDispatch
            { acc with state := { acc.state with editMode := alistSet acc.state.editMode u true } }
            u requests
      | some free =>
          if free = false then acc
          else proceedDispatch acc u requests

/-- `RoundRobinQueueManager.process_user_requests`. -/
def processUserRequests (hasHandler : Bool) (st : FQState)
    (userRequests : List (String × List String)) : SubmitResult :=
  userRequests.foldl (fun acc p => processOneUser hasHandler acc p.1 p.2)
    { state := st, currentProcessing := [], posted := [] }

/-! ## Mailbox: `MessageStore` (src/message_store.py)

`_messages` is a `defaultdict(lambda: defaultdict(list))` and
`_last_activity` a `defaultdict(dict)`: indexing them inserts the missing
entry, so the read operations return the (possibly grown) store alongside
their value.  `SlackMessage.timestamp` is filled from `time.time()` at the
moment `add_message` runs, modeled by the explicit `now` argument; the
platform event's own timestamp is not a parameter of `add_message` at all. -/

structure SlackMessage where
  user_id : Option String
  username : String
  text : String
  timestamp : Rat
  channel_id : String
  thread_ts : Option String
  app_id : Option String
  ml_output : Option String
deriving DecidableEq

structure MessageStore where
  messages : List (String × List (String × List SlackMessage))
  lastActivity : List (String × List (String × Rat))
deriving DecidableEq

/-- The inner thread dict `self._messages[channel_id]` (default empty). -/
def threadsOf (s : MessageStore) (ch : String) : List (String × List SlackMessage) :=
  (alistGet s.messages ch).getD []

/-- The buffered messages under a key, `self._messages[channel_id][thread_key]`
with `thread_key = thread_ts or 'main'` (default empty). -/
def msgsFor (s : MessageStore) (ch : String) (th : Option String) : List SlackMessage :=
  (alistGet (threadsOf s ch) (th.getD "main")).getD []

/-- `MessageStore.add_message`. -/
def addMessage (s : MessageStore) (ch : String) (th : Option String) (uid : Option String)
    (uname : String) (text : String) (appId : Option String) (now : Rat) : MessageStore :=
  let tk := th.getD "main"
  let msg : SlackMessage :=
    { user_id := uid, username := uname, text := text, timestamp := now,
      channel_id := ch, thread_ts := th, app_id := appId, ml_output := none }
  { messages := alistSet s.messages ch (alistSet (threadsOf s ch) tk (msgsFor s ch th ++ [msg])),
    lastActivity := alistSet s.lastActivity ch
      (alistSet ((alistGet s.lastActivity ch).getD []) tk now) }

/-- `MessageStore.get_messages`: returns a copy of the list; indexing the two
defaultdicts inserts empty entries for a previously unseen key, so the
(possibly grown) store is returned as well. -/
def getMessages (s : MessageStore) (ch : String) (th : Option String) :
    List SlackMessage × MessageStore :=
  let tk := th.getD "main"
  (msgsFor s ch th,
   { s with messages := alistSet s.messages ch (alistSet (threadsOf s ch) tk (msgsFor s ch th)) })

/-- `MessageStore.get_message_count` (same defaultdict insertion effect). -/
def getMessageCount (s : MessageStore) (ch : String) (th : Option String) :
    Nat × MessageStore :=
  let tk := th.getD "main"
  ((msgsFor s ch th).length,
   { s with messages := alistSet s.messages ch (alistSet (threadsOf s ch) tk (msgsFor s ch th)) })

/-- `MessageStore.remove_messages`: pops the thread key from both maps (the
outer defaultdict access still inserts the channel entry). -/
def removeMessages (s : MessageStore) (ch : String) (th : Option String) :
    List SlackMessage × MessageStore :=
  let tk := th.getD "main"
  (msgsFor s ch th,
   { messages := alistSet s.messages ch (alistRemove (threadsOf s ch) tk),
     lastActivity := alistSet s.lastActivity ch
       (alistRemove ((alistGet s.lastActivity ch).getD []) tk) })

/-- `MessageStore.update_ml_output`: sets `ml_output` on every message
currently stored under the key. -/
def updateMlOutput (s : MessageStore) (ch : String) (th : Option String)
    (out : String) : MessageStore :=
  let tk := th.getD "main"
  { s with
    messages :=
      alistSet s.messages ch
        (alistSet (threadsOf s ch) tk
          ((msgsFor s ch th).map (fun m => { m with ml_output := some out }))) }

structure StoreStats where
  totalChannels : Nat
  totalThreads : Nat
  totalMessages : Nat
deriving DecidableEq

/-- `MessageStore.get_stats`. -/
def getStats (s : MessageStore) : StoreStats :=
  { totalChannels := s.messages.length,
    totalThreads := (s.messages.map (fun p => p.2.length)).sum,
    totalMessages := (s.messages.map (fun p => (p.2.map (fun q => q.2.length)).sum)).sum }

/-! ## Debounce scheduler: `TimerManager` (src/timer_manager.py)

A timer entry is modeled by its armed timeout; the stored callback is an
abstract value of type `γ` (the orchestrator always registers the same
`lambda ch, th: self._on_timer_expired(ch, th)`, i.e. `γ := Unit`).
`timerFire` models the bookkeeping of `_timer_callback`: it removes the
entry and hands back the callback that would then run outside the lock;
`none` means no callback runs. -/

structure TimerState (γ : Type) where
  timers : List ((String × Option String) × Nat)
  callbacks : List ((String × Option String) × γ)
  running : Bool
deriving DecidableEq

/-- `TimerManager._cancel_timer_internal`. -/
def cancelTimerInternal {γ : Type} (s : TimerState γ) (k : String × Option String) :
    Bool × TimerState γ :=
  if (alistGet s.timers k).isSome then
    (true, { s with timers := alistRemove s.timers k, callbacks := alistRemove s.callbacks k })
  else (false, s)

/-- `TimerManager.start_timer`. -/
def startTimer {γ : Type} (s : TimerState γ) (ch : String) (th : Option String)
    (timeout : Nat) (cb : γ) : TimerState γ :=
  if s.running = false then s
  else
    let k := (ch, th)
    let s' := (cancelTimerInternal s k).2
    { s' with timers := alistSet s'.timers k timeout, callbacks := alistSet s'.callbacks k cb }

/-- `TimerManager.reset_timer`. -/
def resetTimer {γ : Type} (s : TimerState γ) (ch : String) (th : Option String)
    (timeout : Nat) : TimerState γ :=
  match alistGet s.callbacks (ch, th) with
  | some cb => startTimer s ch th timeout cb
  | none => s

/-- Bookkeeping of `TimerManager._timer_callback` on expiry. -/
def timerFire {γ : Type} (s : TimerState γ) (k : String × Option String) :
    Option γ × TimerState γ :=
  match alistGet s.callbacks k with
  | none => (none, s)
  | some cb =>
      (some cb, { s with timers := alistRemove s.timers k, callbacks := alistRemove s.callbacks k })

/-- `TimerManager.has_timer`. -/
def hasTimer {γ : Type} (s : TimerState γ) (ch : String) (th : Option String) : Bool :=
  (alistGet s.timers (ch, th)).isSome

/-- `TimerManager.get_active_timers`. -/
def getActiveTimers {γ : Type} (s : TimerState γ) : List (String × Option String) :=
  s.timers.map Prod.fst

/-- `TimerManager.get_timer_count`. -/
def getTimerCount {γ : Type} (s : TimerState γ) : Nat :=
  s.timers.length

/-- `TimerManager.stop_all`. -/
def stopAll {γ : Type} (s : TimerState γ) : TimerState γ :=
  (s.timers.map Prod.fst).foldl (fun acc k => (cancelTimerInternal acc k).2)
    { s with running := false }

/-! ## Recovery engine and orchestrator
(src/message_recovery.py, src/slack_handler.py)

The combined in-memory state of `SlackHandler` and its `MessageRecovery`.
Wall-clock reads are the explicit `now` argument; a Slack
`conversations_history` result is an explicit `Option (List HistMessage)`
input (`none` models a failed call or a not-ok response, which the code
catches and treats as zero messages); replies sent through
`chat_postMessage` accumulate in `posted`.  Event timestamps are modeled as
rationals; the string id `f"{channel}_{ts}"` becomes `msgId`. -/

structure HistMessage where
  user : Option String
  ts : Rat
  text : String
  bot_id : Option String
  subtype : Option String
  thread_ts : Option String
deriving DecidableEq

structure Event where
  channel : String
  thread_ts : Option String
  text : String
  user : Option String
  ts : Rat
  bot_id : Option String
  subtype : Option String
deriving DecidableEq

/-- Fixed collaborators of the handler: the bot's own id (`auth_test`), the
username resolution (`users_info`), and the configured batch timeout. -/
structure Env where
  botAppId : Option String
  resolveName : Option String → String
  batchTimeout : Nat

structure SysState where
  store : MessageStore
  timers : TimerState Unit
  processed : List String
  lastCheckTime : List (String × Rat)
  lastProcessedTs : List (String × Rat)
  posted : List (String × Option String × String)
deriving DecidableEq

/-- The dedup identifier `f"{channel_id}_{ts}"`. -/
def msgId (ch : String) (ts : Rat) : String :=
  ch ++ "_" ++ toString ts

/-- `MessageRecovery.mark_message_processed`: add the id to the processed
set; past 10,000 entries, keep only half (`set(list(...)[-5000:])`).
The code slices the set's arbitrary iteration order; the model reads the
slice on its insertion-ordered view.  Theorems below therefore use only
order-independent consequences of the trim (its resulting length), or the
below-cap regime in which no trim happens at all. -/
def markMessageProcessed (processed : List String) (ch : String) (ts : Rat) : List String :=
  let p := insertUnique processed (msgId ch ts)
  if 10000 < p.length then p.drop (p.length - 5000) else p

/-- `MessageRecovery._should_recover_message`.  Returns the decision and the
updated state: the timestamp-match branch adds the id to the processed set
(without any trim), and the `get_messages` read has the defaultdict
insertion effect on the store. -/
def shouldRecoverMessage (env : Env) (st : SysState) (m : HistMessage) (ch : String) :
    Bool × SysState :=
  if msgId ch m.ts ∈ st.processed then (false, st)
  else if m.bot_id ≠ none ∨ m.subtype ≠ none then (false, st)
  else if pyStrip m.text = "" then (false, st)
  else if m.user = env.botAppId then (false, st)
  else
    let gm := getMessages st.store ch m.thread_ts
    if ∃ sm ∈ gm.1, sm.timestamp = m.ts then
      (false, { st with store := gm.2, processed := insertUnique st.processed (msgId ch m.ts) })
    else (true, { st with store := gm.2 })

/-- `MessageRecovery._recover_message_to_existing_batch`: mark processed
(plain `set.add`, no trim) and add straight to the store with the arrival
clock `now`; no timer is started. -/
def recoverMessageToExistingBatch (env : Env) (st : SysState) (m : HistMessage)
    (ch : String) (now : Rat) : SysState :=
  let uname := match m.user with
    | some u => env.resolveName (some u)
    | none => "unknown"
  { st with
    processed := insertUnique st.processed (msgId ch m.ts),
    store := addMessage st.store ch m.thread_ts m.user uname m.text none now }

/-- `SlackHandler._process_message_event`: dedup check, then an immediate
`mark_message_processed`, then the empty-text / bot / self filters, then
store append and timer (re)start. -/
def processMessageEvent (env : Env) (st : SysState) (e : Event) (now : Rat) : SysState :=
  let text := pyStrip e.text
  if msgId e.channel e.ts ∈ st.processed then st
  else
    let st1 := { st with processed := markMessageProcessed st.processed e.channel e.ts }
    if text = "" then st1
    else if e.bot_id ≠ none ∨ e.subtype ≠ none then st1
    else if e.user = env.botAppId then st1
    else
      let uname := env.resolveName e.user
      let store1 := addMessage st1.store e.channel e.thread_ts e.user uname text none now
      { st1 with
        store := (getMessageCount store1 e.channel e.thread_ts).2,
        timers := startTimer st1.timers e.channel e.thread_ts env.batchTimeout () }

/-- `MessageRecovery._recover_message`: first adds the id to the processed
set (a plain `set.add`, before anything else), then rebuilds an event (with
no bot fields) and funnels it through `_process_message_event` — whose
duplicate check therefore hits the freshly added id, so the event is
dropped without being stored. -/
def recoverMessage (env : Env) (st : SysState) (m : HistMessage) (ch : String)
    (now : Rat) : SysState :=
  let st1 := { st with processed := insertUnique st.processed (msgId ch m.ts) }
  processMessageEvent env st1
    { channel := ch, thread_ts := m.thread_ts, text := m.text, user := m.user,
      ts := m.ts, bot_id := none, subtype := none } now

/-- Loop body of `_check_channel_for_missing_messages_immediate`. -/
def immediateStep (env : Env) (ch : String) (now : Rat) (acc : SysState)
    (m : HistMessage) : SysState :=
  let pr := shouldRecoverMessage env acc m ch
  if pr.1 then recoverMessageToExistingBatch env pr.2 m ch now else pr.2

/-- `MessageRecovery._check_channel_for_missing_messages_immediate`: fetch
the last 30 seconds of history unconditionally and merge the recoverable
messages into the existing batch.  The first component records that the
history fetch was attempted. -/
def checkChannelImmediate (env : Env) (st : SysState) (ch : String) (now : Rat)
    (resp : Option (List HistMessage)) : Bool × SysState :=
  match resp with
  | none => (true, st)
  | some messages => (true, messages.reverse.foldl (immediateStep env ch now) st)

/-- Loop body of `_check_channel_for_missing_messages`. -/
def backgroundStep (env : Env) (ch : String) (now : Rat) (acc : SysState)
    (m : HistMessage) : SysState :=
  let pr := shouldRecoverMessage env acc m ch
  if pr.1 then recoverMessage env pr.2 m ch now else pr.2

/-- `MessageRecovery._check_channel_for_missing_messages` (the background
path): skip silently when the channel was checked less than
`min_check_interval = 25` seconds ago, otherwise record the check time,
fetch, recover, and remember the largest seen timestamp. -/
def checkChannel (env : Env) (st : SysState) (ch : String) (now : Rat)
    (resp : Option (List HistMessage)) : Bool × SysState :=
  if now - (alistGet st.lastCheckTime ch).getD 0 < 25 then (false, st)
  else
    let st1 := { st with lastCheckTime := alistSet st.lastCheckTime ch now }
    match resp with
    | none => (true, st1)
    | some messages =>
      let st2 := messages.reverse.foldl (backgroundStep env ch now) st1
      match messages.map HistMessage.ts with
      | [] => (true, st2)
      | t :: rest =>
          (true, { st2 with lastProcessedTs := alistSet st2.lastProcessedTs ch (rest.foldl max t) })

/-- `SlackHandler._post_response` (the `chat_postMessage` call). -/
def postResponse (st : SysState) (ch : String) (th : Option String) (text : String) : SysState :=
  { st with posted := st.posted ++ [(ch, th, text)] }

/-- The degraded reply built when `ml_processor.process_messages` raises. -/
def degradedText (n : Nat) : String :=
  "Processed " ++ toString n ++ " message" ++ (if n ≠ 1 then "s" else "")
    ++ " (ML processing failed)"

/-- `SlackHandler._process_messages`.  `jobHandled` is the return value of
the external `handle_specific_job_action` (consulted only for single-message
batches); `mlResult` is the downstream processor's outcome (`.error`
models a raised exception). -/
def processMessages (st : SysState) (ch : String) (th : Option String)
    (msgs : List SlackMessage) (jobHandled : Bool) (mlResult : Except String String) :
    SysState :=
  if msgs.length = 1 ∧ jobHandled = true then st
  else
    let st1 :=
      match mlResult with
      | .ok resp =>
          postResponse { st with store := updateMlOutput st.store ch th resp } ch th resp
      | .error _ =>
          postResponse st ch th (degradedText msgs.length)
    { st1 with store := (removeMessages st1.store ch th).2 }

/-- `SlackHandler._on_timer_expired`: snapshot the batch, abort if empty,
run the immediate recovery check, re-read the final batch, and process it. -/
def onTimerExpired (env : Env) (st : SysState) (ch : String) (th : Option String)
    (now : Rat) (resp : Option (List HistMessage)) (jobHandled : Bool)
    (mlResult : Except String String) : SysState :=
  let initial := (getMessages st.store ch th).1
  let st1 := { st with store := (getMessages st.store ch th).2 }
  if initial = [] then st1
  else
    let st2 := (checkChannelImmediate env st1 ch now resp).2
    let finalMsgs := (getMessages st2.store ch th).1
    let st3 := { st2 with store := (getMessages st2.store ch th).2 }
    processMessages st3 ch th finalMsgs jobHandled mlResult

/-- Example collaborators used by concrete witnesses below. -/
def envEx : Env :=
  { botAppId := some "B", resolveName := fun u => u.getD "unknown", batchTimeout := 20 }

/-- An empty system state. -/
def sysEmpty : SysState :=
  { store := ⟨[], []⟩, timers := ⟨[], [], true⟩, processed := [],
    lastCheckTime := [], lastProcessedTs := [], posted := [] }

/-- A processed set of exactly 10,000 distinct identifiers. -/
def bigProcessed : List String :=
  (List.range 10000).map (fun n => "a" ++ toString n)

/-- A state with one buffered message under key ("C", main). -/
def sysOneMsg : SysState :=
  { store := ⟨[("C", [("main",
      [{ user_id := some "U", username := "u", text := "hi", timestamp := 1,
         channel_id := "C", thread_ts := none, app_id := none, ml_output := none }])])], []⟩,
    timers := ⟨[], [], true⟩, processed := [], lastCheckTime := [],
    lastProcessedTs := [], posted := [] }

theorem alistGet_set_self {κ β : Type} [DecidableEq κ] (l : List (κ × β)) (k : κ) (v : β) :
    alistGet (alistSet l k v) k = some v := by
  induction l with
  | nil => simp [alistGet, alistSet]
  | cons p rest ih =>
      obtain ⟨k', v'⟩ := p
      by_cases h : k' = k
      · simp [alistGet, alistSet, h]
      · simp [alistGet, alistSet, h, ih]

theorem alistGet_remove_self {κ β : Type} [DecidableEq κ] (l : List (κ × β)) (k : κ) :
    alistGet (alistRemove l k) k = none := by
  induction l with
  | nil => simp [alistGet, alistRemove]
  | cons p rest ih =>
      obtain ⟨k', v'⟩ := p
      by_cases h : k' = k
      · simpa [alistRemove, List.filter, h] using ih
      · simpa [alistRemove, List.filter, h, alistGet] using ih

theorem alistGet_none_set {κ β : Type} [DecidableEq κ] (l : List (κ × β)) (k : κ) (v : β)
    (h : alistGet l k = none) : alistSet l k v = l ++ [(k, v)] := by
  induction l with
  | nil => simp [alistSet]
  | cons p rest ih =>
      obtain ⟨k', v'⟩ := p
      by_cases hk : k' = k
      · simp [alistGet, hk] at h
      · simp [alistGet, hk] at h
        simp [alistSet, hk, ih h]

theorem alistGet_eq_none_iff {κ β : Type} [DecidableEq κ] (l : List (κ × β)) (k : κ) :
    alistGet l k = none ↔ ∀ p ∈ l, ¬ p.1 = k := by
  induction l with
  | nil => simp [alistGet]
  | cons p rest ih =>
      obtain ⟨k', v'⟩ := p
      by_cases h : k' = k
      · simp [alistGet, h]
      · simp [alistGet, h, ih]

theorem mem_insertUnique_self (l : List String) (x : String) : x ∈ insertUnique l x := by
  unfold insertUnique
  by_cases h : x ∈ l <;> simp [h]

/-- Claim C1, as stated, is false on the code: `process_user_requests` never
writes `free = False`.  At the concrete input below the submission of
`[a, b, c]` for a free user with an empty queue leaves the user's is_free
flag `true`. -/
theorem fairness_submit_free_user_claim_false :
    ¬ (∀ (st : FQState) (u a b c : String),
        isFree st u = true → pendingRequests st u = [] →
        (alistGet (processUserRequests true st [(u, [a, b, c])]).currentProcessing u = some a
         ∧ pendingRequests (processUserRequests true st [(u, [a, b, c])]).state u = [b, c]
         ∧ isFree (processUserRequests true st [(u, [a, b, c])]).state u = false)) := by
  intro h
  have h3 := (h ⟨[], []⟩ "u1" "a" "b" "c" (by decide) (by decide)).2.2
  exact absurd h3 (by decide)

/-- Claim C1 (corrected): for a user whose fairness state has is_free = true
and whose persisted pending queue is empty, a submit of [a, b, c] through
`process_user_requests` ends with a as the user's current request and the
persisted pending queue equal to [b, c]; the user's is_free flag however
remains true — `process_user_requests` never marks the user busy (busy
marking is left to the separate `mark_user_busy`, driven by the caller). -/
theorem fairness_submit_free_user (st : FQState) (u a b c : String)
    (h1 : isFree st u = true) (h2 : pendingRequests st u = []) :
    alistGet (processUserRequests true st [(u, [a, b, c])]).currentProcessing u = some a
    ∧ pendingRequests (processUserRequests true st [(u, [a, b, c])]).state u = [b, c]
    ∧ isFree (processUserRequests true st [(u, [a, b, c])]).state u = true := by
  simp only [pendingRequests] at h2
  cases hem : alistGet st.editMode u with
  | none =>
      refine ⟨?_, ?_, ?_⟩ <;>
        simp [processUserRequests, processOneUser, proceedDispatch, pendingRequests, isFree,
          h2, hem, alistGet_set_self, alistGet]
  | some free =>
      have hf : free = true := by
        have := h1
        simp [isFree, hem] at this
        exact this
      subst hf
      refine ⟨?_, ?_, ?_⟩ <;>
        simp [processUserRequests, processOneUser, proceedDispatch, pendingRequests, isFree,
          h2, hem, alistGet_set_self, alistGet]

theorem fairness_submit_free_user_witness :
    alistGet (processUserRequests true ⟨[], []⟩ [("u1", ["a", "b", "c"])]).currentProcessing "u1"
        = some "a"
    ∧ pendingRequests (processUserRequests true ⟨[], []⟩ [("u1", ["a", "b", "c"])]).state "u1"
        = ["b", "c"]
    ∧ isFree (processUserRequests true ⟨[], []⟩ [("u1", ["a", "b", "c"])]).state "u1" = true :=
  fairness_submit_free_user ⟨[], []⟩ "u1" "a" "b" "c" (by decide) (by decide)

/-- Claim C4, as stated, is false on the code: the conflict branch of
`process_user_requests` is only taken when a slack handler is passed
(`... and slack_handler`), and the default is `None`.  At the concrete
input below (no handler, pending queue ["x"], free user) the call posts no
conflict signal, overwrites the pending queue and makes "a" current. -/
theorem fairness_conflict_claim_false :
    ¬ (∀ (hasHandler : Bool) (st : FQState) (u : String) (reqs : List String),
        pendingRequests st u ≠ [] →
        ((processUserRequests hasHandler st [(u, reqs)]).posted ≠ []
         ∧ (processUserRequests hasHandler st [(u, reqs)]).state = st
         ∧ alistGet (processUserRequests hasHandler st [(u, reqs)]).currentProcessing u = none)) := by
  intro h
  have h2 := (h false ⟨[("u", ["x"])], [("u", true)]⟩ "u" ["a", "b"] (by decide)).2.1
  exact absurd h2 (by decide)

/-- Claim C4 (corrected): for a submit call made with the slack handler
provided, with a non-empty request list, for a user whose persisted pending
queue is non-empty, the call posts a conflict prompt for the caller and
mutates no fairness-queue state: both persisted documents are unchanged and
no request from the new submission becomes the current request.  Without a
handler (the default `slack_handler=None`) the conflict branch is skipped
and the submission overwrites the pending queue. -/
theorem fairness_conflict_branch (st : FQState) (u : String) (reqs : List String)
    (h1 : reqs ≠ []) (h2 : pendingRequests st u ≠ []) :
    (processUserRequests true st [(u, reqs)]).state = st
    ∧ alistGet (processUserRequests true st [(u, reqs)]).currentProcessing u = none
    ∧ (processUserRequests true st [(u, reqs)]).posted
        = [(u, conflictMessage (pendingRequests st u))] := by
  have hlen : (pendingRequests st u).length > 0 := List.length_pos.mpr h2
  refine ⟨?_, ?_, ?_⟩ <;>
    simp [processUserRequests, processOneUser, h1, hlen, alistGet]

theorem msgsFor_addMessage (s : MessageStore) (ch : String) (th : Option String)
    (uid : Option String) (uname text : String) (appId : Option String) (now : Rat) :
    msgsFor (addMessage s ch th uid uname text appId now) ch th
      = msgsFor s ch th
        ++ [{ user_id := uid, username := uname, text := text, timestamp := now,
              channel_id := ch, thread_ts := th, app_id := appId, ml_output := none }] := by
  simp [addMessage, msgsFor, threadsOf, alistGet_set_self]

theorem msgsFor_getMessages_snd (s : MessageStore) (ch : String) (th : Option String) :
    msgsFor ((getMessages s ch th).2) ch th = msgsFor s ch th := by
  simp [getMessages, msgsFor, threadsOf, alistGet_set_self]

theorem msgsFor_removeMessages_snd (s : MessageStore) (ch : String) (th : Option String) :
    msgsFor ((removeMessages s ch th).2) ch th = [] := by
  simp [removeMessages, msgsFor, threadsOf, alistGet_set_self, alistGet_remove_self]

/-- Claim C9 (confirmed): reading the mailbox is not side-effect free.
`get_messages` and `get_message_count` on a channel that has no entry insert
an empty entry for the channel and thread key, so a subsequent `get_stats`
counts that channel and thread in its distinct-channel and distinct-thread
totals even though no message was ever added (the message total is
unchanged). -/
theorem mailbox_read_inserts (s : MessageStore) (ch : String) (th : Option String)
    (h : alistGet s.messages ch = none) :
    (getMessages s ch th).1 = []
    ∧ getStats (getMessages s ch th).2
        = { totalChannels := (getStats s).totalChannels + 1,
            totalThreads := (getStats s).totalThreads + 1,
            totalMessages := (getStats s).totalMessages }
    ∧ (getMessageCount s ch th).1 = 0
    ∧ getStats (getMessageCount s ch th).2
        = { totalChannels := (getStats s).totalChannels + 1,
            totalThreads := (getStats s).totalThreads + 1,
            totalMessages := (getStats s).totalMessages } := by
  have hth : threadsOf s ch = [] := by simp [threadsOf, h]
  have hms : msgsFor s ch th = [] := by simp [msgsFor, hth, alistGet]
  have hset : alistSet s.messages ch (alistSet (threadsOf s ch) (th.getD "main") (msgsFor s ch th))
      = s.messages ++ [(ch, [(th.getD "main", [])])] := by
    rw [hth, hms]
    simpa [alistSet] using alistGet_none_set s.messages ch [(th.getD "main", [])] h
  refine ⟨by simp [getMessages, hms], ?_, by simp [getMessageCount, hms], ?_⟩ <;>
    simp [getMessages, getMessageCount, getStats, hset]

theorem mailbox_read_inserts_witness :
    (getMessages ⟨[], []⟩ "C1" none).1 = []
    ∧ getStats (getMessages ⟨[], []⟩ "C1" none).2
        = { totalChannels := (getStats ⟨[], []⟩).totalChannels + 1,
            totalThreads := (getStats ⟨[], []⟩).totalThreads + 1,
            totalMessages := (getStats ⟨[], []⟩).totalMessages }
    ∧ (getMessageCount ⟨[], []⟩ "C1" none).1 = 0
    ∧ getStats (getMessageCount ⟨[], []⟩ "C1" none).2
        = { totalChannels := (getStats ⟨[], []⟩).totalChannels + 1,
            totalThreads := (getStats ⟨[], []⟩).totalThreads + 1,
            totalMessages := (getStats ⟨[], []⟩).totalMessages } :=
  mailbox_read_inserts ⟨[], []⟩ "C1" none (by decide)

theorem cancelFold {γ : Type} (ks : List (String × Option String)) :
    ∀ s : TimerState γ,
      (∀ p ∈ s.timers, p.1 ∈ ks) →
      (∀ p ∈ s.callbacks, p.1 ∈ s.timers.map Prod.fst) →
      (ks.foldl (fun acc k => (cancelTimerInternal acc k).2) s).timers = []
      ∧ (ks.foldl (fun acc k => (cancelTimerInternal acc k).2) s).callbacks = []
      ∧ (ks.foldl (fun acc k => (cancelTimerInternal acc k).2) s).running = s.running := by
  induction ks with
  | nil =>
      intro s h1 h2
      have ht : s.timers = [] := by
        cases hts : s.timers with
        | nil => rfl
        | cons p rest => exact absurd (h1 p (by simp [hts])) (by simp)
      have hc : s.callbacks = [] := by
        cases hcs : s.callbacks with
        | nil => rfl
        | cons p rest =>
            have := h2 p (by simp [hcs])
            rw [ht] at this
            exact absurd this (by simp)
      exact ⟨ht, hc, rfl⟩
  | cons k kt ih =>
      intro s h1 h2
      simp only [List.foldl_cons]
      have hrun : ((cancelTimerInternal s k).2).running = s.running := by
        unfold cancelTimerInternal
        split <;> rfl
      have h1' : ∀ p ∈ ((cancelTimerInternal s k).2).timers, p.1 ∈ kt := by
        intro p hp
        by_cases hg : (alistGet s.timers k).isSome
        · simp only [cancelTimerInternal, hg, if_pos] at hp
          simp only [alistRemove, List.mem_filter, decide_eq_true_eq] at hp
          have hm := h1 p hp.1
          simp only [List.mem_cons] at hm
          exact hm.resolve_left hp.2
        · simp only [cancelTimerInternal, if_neg hg] at hp
          have hnone : alistGet s.timers k = none := by
            cases hgg : alistGet s.timers k with
            | none => rfl
            | some v => rw [hgg] at hg; simp at hg
          have hne := (alistGet_eq_none_iff s.timers k).mp hnone p hp
          have hm := h1 p hp
          simp only [List.mem_cons] at hm
          exact hm.resolve_left hne
      have h2' : ∀ p ∈ ((cancelTimerInternal s k).2).callbacks,
          p.1 ∈ ((cancelTimerInternal s k).2).timers.map Prod.fst := by
        intro p hp
        by_cases hg : (alistGet s.timers k).isSome
        · simp only [cancelTimerInternal, hg, if_pos] at hp ⊢
          simp only [alistRemove, List.mem_filter, decide_eq_true_eq] at hp
          have hmem := h2 p hp.1
          obtain ⟨q, hq, hqe⟩ := List.mem_map.mp hmem
          refine List.mem_map.mpr ⟨q, ?_, hqe⟩
          simp only [alistRemove, List.mem_filter, decide_eq_true_eq]
          exact ⟨hq, by rw [hqe]; exact hp.2⟩
        · simp only [cancelTimerInternal, if_neg hg] at hp ⊢
          exact h2 p hp
      obtain ⟨ha, hb, hc⟩ := ih ((cancelTimerInternal s k).2) h1' h2'
      exact ⟨ha, hb, by rw [hc, hrun]⟩

/-- Claim C8 (confirmed): after `stop_all`, every outstanding timer is
cancelled (`has_timer` is false for every key), a subsequent `start_timer`
is a no-op that arms nothing, `reset_timer` is a no-op because no callback
remains on file, and a timer expiry finds no callback, so no dispatch fires
for any key after shutdown.  The hypothesis is the bookkeeping invariant
maintained under the manager's lock: every stored callback belongs to a
currently armed timer. -/
theorem scheduler_stop_all {γ : Type} (s : TimerState γ) (ch : String) (th : Option String)
    (t : Nat) (cb : γ) (k : String × Option String)
    (hsync : ∀ p ∈ s.callbacks, p.1 ∈ s.timers.map Prod.fst) :
    hasTimer (stopAll s) ch th = false
    ∧ startTimer (stopAll s) ch th t cb = stopAll s
    ∧ resetTimer (stopAll s) ch th t = stopAll s
    ∧ timerFire (stopAll s) k = (none, stopAll s) := by
  obtain ⟨ht, hc, hr⟩ :=
    cancelFold (γ := γ) (s.timers.map Prod.fst) { s with running := false }
      (fun p hp => List.mem_map_of_mem _ hp) hsync
  have ht' : (stopAll s).timers = [] := ht
  have hc' : (stopAll s).callbacks = [] := hc
  have hr' : (stopAll s).running = false := hr
  refine ⟨?_, ?_, ?_, ?_⟩
  · simp [hasTimer, ht', alistGet]
  · simp [startTimer, hr']
  · simp [resetTimer, hc', alistGet]
  · simp [timerFire, hc', alistGet]

theorem scheduler_stop_all_witness :
    hasTimer (stopAll (⟨[(("C", none), 20)], [(("C", none), ())], true⟩ : TimerState Unit))
        "C" none = false
    ∧ startTimer (stopAll (⟨[(("C", none), 20)], [(("C", none), ())], true⟩ : TimerState Unit))
        "C" none 20 ()
        = stopAll (⟨[(("C", none), 20)], [(("C", none), ())], true⟩ : TimerState Unit)
    ∧ resetTimer (stopAll (⟨[(("C", none), 20)], [(("C", none), ())], true⟩ : TimerState Unit))
        "C" none 20
        = stopAll (⟨[(("C", none), 20)], [(("C", none), ())], true⟩ : TimerState Unit)
    ∧ timerFire (stopAll (⟨[(("C", none), 20)], [(("C", none), ())], true⟩ : TimerState Unit))
        ("C", none)
        = (none, stopAll (⟨[(("C", none), 20)], [(("C", none), ())], true⟩ : TimerState Unit)) :=
  scheduler_stop_all _ "C" none 20 () ("C", none) (by decide)

theorem fairness_conflict_branch_witness :
    (processUserRequests true ⟨[("u", ["x"])], []⟩ [("u", ["a", "b"])]).state
        = ⟨[("u", ["x"])], []⟩
    ∧ alistGet (processUserRequests true ⟨[("u", ["x"])], []⟩
        [("u", ["a", "b"])]).currentProcessing "u" = none
    ∧ (processUserRequests true ⟨[("u", ["x"])], []⟩ [("u", ["a", "b"])]).posted
        = [("u", conflictMessage (pendingRequests ⟨[("u", ["x"])], []⟩ "u"))] :=
  fairness_conflict_branch ⟨[("u", ["x"])], []⟩ "u" ["a", "b"] (by decide) (by decide)

theorem length_markMessageProcessed_le (processed : List String) (ch : String) (ts : Rat) :
    (markMessageProcessed processed ch ts).length ≤ 10000 := by
  simp only [markMessageProcessed]
  split_ifs with h
  · simp only [List.length_drop]
    omega
  · omega

theorem length_insertUnique_le (l : List String) (x : String) :
    (insertUnique l x).length ≤ l.length + 1 := by
  unfold insertUnique
  split_ifs
  · omega
  · simp

theorem markMessageProcessed_of_lt_cap (processed : List String) (ch : String) (ts : Rat)
    (h : processed.length < 10000) :
    markMessageProcessed processed ch ts = insertUnique processed (msgId ch ts) := by
  have hle := length_insertUnique_le processed (msgId ch ts)
  simp only [markMessageProcessed]
  rw [if_neg (by omega)]

theorem msgId_b_notMem_bigProcessed : msgId "b" 0 ∉ bigProcessed := by
  intro h
  simp only [bigProcessed, List.mem_map] at h
  obtain ⟨n, -, he⟩ := h
  have hd : ("a" ++ toString n).data.head? = (msgId "b" 0).data.head? := by rw [he]
  have h1 : ("a" ++ toString n).data.head? = some 'a' := rfl
  have h2 : (msgId "b" 0).data.head? = some 'b' := rfl
  rw [h1, h2] at hd
  exact absurd hd (by decide)

/-- Claim C5, as stated, is false on the code: the cap on the
Processed-Event Record is enforced only inside `mark_message_processed`;
`_recover_message_to_existing_batch` adds to the set with a plain
`set.add`, so starting from 10,000 entries one recovery leaves 10,001. -/
theorem recovery_cap_claim_false :
    ¬ (∀ (env : Env) (st : SysState) (m : HistMessage) (ch : String) (now : Rat),
        st.processed.length ≤ 10000 →
        (recoverMessageToExistingBatch env st m ch now).processed.length ≤ 10000) := by
  intro h
  have hlen : bigProcessed.length = 10000 := by simp [bigProcessed]
  have happ := h envEx
      { store := ⟨[], []⟩, timers := ⟨[], [], true⟩, processed := bigProcessed,
        lastCheckTime := [], lastProcessedTs := [], posted := [] }
      ⟨some "U", 0, "hello", none, none, none⟩ "b" 0 (by rw [hlen])
  have hres : (recoverMessageToExistingBatch envEx
      { store := ⟨[], []⟩, timers := ⟨[], [], true⟩, processed := bigProcessed,
        lastCheckTime := [], lastProcessedTs := [], posted := [] }
      ⟨some "U", 0, "hello", none, none, none⟩ "b" 0).processed
      = bigProcessed ++ [msgId "b" 0] := by
    simp [recoverMessageToExistingBatch, insertUnique, msgId_b_notMem_bigProcessed]
  rw [hres, List.length_append, hlen] at happ
  simp at happ

/-- Claim C5 (corrected): the Processed-Event Record never loses entries on
the recovery path and only gains the recovered identifier there;
the 10,000-entry cap, with the trim to the most recently added 5,000
entries of the insertion-ordered view, is enforced only by
`mark_message_processed` (the ingestion path), so the size is at most
10,000 after that operation completes, while a recovery-path insertion can
leave the record above the cap until the next `mark_message_processed`. -/
theorem recovery_cap (processed : List String) (ch : String) (ts : Rat)
    (env : Env) (st : SysState) (m : HistMessage) (ch' : String) (now : Rat) :
    (markMessageProcessed processed ch ts).length ≤ 10000
    ∧ (recoverMessageToExistingBatch env st m ch' now).processed
        = insertUnique st.processed (msgId ch' m.ts)
    ∧ st.processed ⊆ (recoverMessageToExistingBatch env st m ch' now).processed := by
  refine ⟨length_markMessageProcessed_le processed ch ts, rfl, ?_⟩
  show st.processed ⊆ insertUnique st.processed (msgId ch' m.ts)
  unfold insertUnique
  split_ifs with h
  · exact fun x hx => hx
  · exact List.subset_append_left _ _

/-- Claim C2, as stated, is false on the code: the reconciliation pass the
orchestrator runs immediately before dispatch
(`_check_channel_for_missing_messages_immediate`) has no rate-limit check.
At the concrete input below the channel was checked 1 second ago, yet the
immediate pass still performs the history fetch instead of skipping. -/
theorem reconcile_rate_limit_claim_false :
    ¬ (∀ (env : Env) (st : SysState) (ch : String) (now : Rat)
        (resp : Option (List HistMessage)),
        now - (alistGet st.lastCheckTime ch).getD 0 < 25 →
        checkChannelImmediate env st ch now resp = (false, st)) := by
  intro h
  have happ := h envEx
      { store := ⟨[], []⟩, timers := ⟨[], [], true⟩, processed := [],
        lastCheckTime := [("C", 100)], lastProcessedTs := [], posted := [] }
      "C" 101 (some []) (by norm_num [alistGet])
  have : (true : Bool) = false := congrArg Prod.fst happ
  exact absurd this (by decide)

/-- Claim C2 (corrected): the ≈25-second per-conversation minimum re-check
interval is enforced only by the background check path
(`_check_channel_for_missing_messages`), which skips silently — no fetch,
no state change — when the conversation was checked less than 25 seconds
ago; the reconciliation pass the orchestrator runs synchronously
immediately before dispatching a batch
(`_check_channel_for_missing_messages_immediate`) performs the history
fetch unconditionally, with no per-conversation rate limiting. -/
theorem reconcile_rate_limit (env : Env) (st : SysState) (ch : String) (now : Rat)
    (resp : Option (List HistMessage))
    (h : now - (alistGet st.lastCheckTime ch).getD 0 < 25) :
    checkChannel env st ch now resp = (false, st)
    ∧ (checkChannelImmediate env st ch now resp).1 = true := by
  constructor
  · simp [checkChannel, h]
  · cases resp <;> rfl

theorem reconcile_rate_limit_witness :
    checkChannel envEx
        { store := ⟨[], []⟩, timers := ⟨[], [], true⟩, processed := [],
          lastCheckTime := [("C", 100)], lastProcessedTs := [], posted := [] }
        "C" 101 (some [⟨some "U", 100, "hi", none, none, none⟩])
      = (false,
        { store := ⟨[], []⟩, timers := ⟨[], [], true⟩, processed := [],
          lastCheckTime := [("C", 100)], lastProcessedTs := [], posted := [] })
    ∧ (checkChannelImmediate envEx
        { store := ⟨[], []⟩, timers := ⟨[], [], true⟩, processed := [],
          lastCheckTime := [("C", 100)], lastProcessedTs := [], posted := [] }
        "C" 101 (some [⟨some "U", 100, "hi", none, none, none⟩])).1 = true :=
  reconcile_rate_limit envEx _ "C" 101 (some [⟨some "U", 100, "hi", none, none, none⟩])
    (by norm_num [alistGet])

/-- Claim C6, as stated, is false on the code:
`_process_message_event` calls `mark_message_processed` immediately after
the duplicate check, before the empty-text / bot-identity filters.  At the
concrete input below a whitespace-only event is discarded by the text
filter, yet its identifier ends up marked processed. -/
theorem ingest_mark_order_claim_false :
    ¬ (∀ (env : Env) (st : SysState) (e : Event) (now : Rat),
        (pyStrip e.text = "" ∨ e.bot_id ≠ none ∨ e.subtype ≠ none ∨ e.user = env.botAppId) →
        (processMessageEvent env st e now).processed = st.processed) := by
  intro h
  have happ := h envEx sysEmpty ⟨"C", none, " ", some "U", 1, none, none⟩ 0
      (Or.inl (by decide))
  exact absurd happ (by decide)

/-- Claim C6 (corrected): on an inbound event the orchestrator performs the
duplicate check against the Processed-Event Record first (discarding
silently on a hit), but on a miss it marks the identifier processed
immediately — before the empty-text and bot-identity filters — and only
then discards filtered events without appending to the mailbox or touching
the timers.  So an event discarded by the empty-text or bot-identity
filter is still marked processed: whenever the record is below its
10,000-entry cap (so the mark performs no trim), the filtered event's
identifier is in the record afterwards and the record equals the plain
set-insert of that identifier; at or above the cap the mark still runs, but
its trim keeps an arbitrary half of the set, so survival of the fresh
identifier is not guaranteed by the code. -/
theorem ingest_marks_before_filters (env : Env) (st : SysState) (e : Event) (now : Rat)
    (h0 : st.processed.length < 10000)
    (h1 : msgId e.channel e.ts ∉ st.processed)
    (h2 : pyStrip e.text = "" ∨ e.bot_id ≠ none ∨ e.subtype ≠ none ∨ e.user = env.botAppId) :
    (processMessageEvent env st e now).processed
        = insertUnique st.processed (msgId e.channel e.ts)
    ∧ msgId e.channel e.ts ∈ (processMessageEvent env st e now).processed
    ∧ (processMessageEvent env st e now).store = st.store
    ∧ (processMessageEvent env st e now).timers = st.timers
    ∧ (processMessageEvent env st e now).posted = st.posted := by
  have heq := markMessageProcessed_of_lt_cap st.processed e.channel e.ts h0
  have hres : (processMessageEvent env st e now)
      = { st with processed := markMessageProcessed st.processed e.channel e.ts } := by
    simp only [processMessageEvent, if_neg h1]
    split_ifs with ha hb hc
    · rfl
    · rfl
    · rfl
    · rcases h2 with h | h | h | h
      · exact absurd h ha
      · exact absurd (Or.inl h) hb
      · exact absurd (Or.inr h) hb
      · exact absurd h hc
  rw [hres]
  refine ⟨heq, ?_, rfl, rfl, rfl⟩
  show msgId e.channel e.ts ∈ markMessageProcessed st.processed e.channel e.ts
  rw [heq]
  exact mem_insertUnique_self _ _

theorem ingest_marks_before_filters_witness :
    (processMessageEvent envEx sysEmpty ⟨"C", none, " ", some "U", 1, none, none⟩ 0).processed
        = insertUnique sysEmpty.processed (msgId "C" 1)
    ∧ msgId "C" 1
        ∈ (processMessageEvent envEx sysEmpty ⟨"C", none, " ", some "U", 1, none, none⟩ 0).processed
    ∧ (processMessageEvent envEx sysEmpty ⟨"C", none, " ", some "U", 1, none, none⟩ 0).store
        = sysEmpty.store
    ∧ (processMessageEvent envEx sysEmpty ⟨"C", none, " ", some "U", 1, none, none⟩ 0).timers
        = sysEmpty.timers
    ∧ (processMessageEvent envEx sysEmpty ⟨"C", none, " ", some "U", 1, none, none⟩ 0).posted
        = sysEmpty.posted :=
  ingest_marks_before_filters envEx sysEmpty ⟨"C", none, " ", some "U", 1, none, none⟩ 0
    (by decide) (by decide) (Or.inl (by decide))

theorem getMessages_fst (s : MessageStore) (ch : String) (th : Option String) :
    (getMessages s ch th).1 = msgsFor s ch th := rfl

theorem shouldRecover_accept_iff (env : Env) (st : SysState) (m : HistMessage) (ch : String) :
    (shouldRecoverMessage env st m ch).1 = true ↔
      (msgId ch m.ts ∉ st.processed ∧ m.bot_id = none ∧ m.subtype = none ∧
       ¬ pyStrip m.text = "" ∧ ¬ m.user = env.botAppId ∧
       ∀ sm ∈ msgsFor st.store ch m.thread_ts, ¬ sm.timestamp = m.ts) := by
  simp only [shouldRecoverMessage]
  split_ifs with h1 h2 h3 h4 h5 <;> (simp_all [getMessages_fst]; try tauto)

theorem shouldRecover_marks (env : Env) (st : SysState) (m : HistMessage) (ch : String)
    (h1 : msgId ch m.ts ∉ st.processed) (h2 : m.bot_id = none) (h3 : m.subtype = none)
    (h4 : ¬ pyStrip m.text = "") (h5 : ¬ m.user = env.botAppId)
    (h6 : ∃ sm ∈ msgsFor st.store ch m.thread_ts, sm.timestamp = m.ts) :
    msgId ch m.ts ∈ ((shouldRecoverMessage env st m ch).2).processed := by
  simp only [shouldRecoverMessage, getMessages_fst]
  rw [if_neg h1, if_neg (by simp [h2, h3]), if_neg h4, if_neg h5, if_pos h6]
  exact mem_insertUnique_self _ _

theorem shouldRecover_msgsFor (env : Env) (st : SysState) (m : HistMessage) (ch : String) :
    msgsFor ((shouldRecoverMessage env st m ch).2).store ch m.thread_ts
      = msgsFor st.store ch m.thread_ts := by
  simp only [shouldRecoverMessage]
  split_ifs <;> simp [msgsFor_getMessages_snd]

/-- Claim C7 (confirmed): `_should_recover_message` accepts an event from
the history fetch iff its identifier is not in the Processed-Event Record,
it carries no bot flag or subtype, its author is not the bot's own
identity, its text is not empty or whitespace-only, and no message stored
in the mailbox for its key has exactly its timestamp; when only the
timestamp check fails the identifier is additionally marked processed; in
every case the batch stored under the key is left unchanged. -/
theorem recovery_should_recover (env : Env) (st : SysState) (m : HistMessage) (ch : String) :
    ((shouldRecoverMessage env st m ch).1 = true ↔
      (msgId ch m.ts ∉ st.processed ∧ m.bot_id = none ∧ m.subtype = none ∧
       ¬ pyStrip m.text = "" ∧ ¬ m.user = env.botAppId ∧
       ∀ sm ∈ msgsFor st.store ch m.thread_ts, ¬ sm.timestamp = m.ts))
    ∧ ((msgId ch m.ts ∉ st.processed ∧ m.bot_id = none ∧ m.subtype = none ∧
        ¬ pyStrip m.text = "" ∧ ¬ m.user = env.botAppId ∧
        (∃ sm ∈ msgsFor st.store ch m.thread_ts, sm.timestamp = m.ts)) →
      msgId ch m.ts ∈ ((shouldRecoverMessage env st m ch).2).processed)
    ∧ msgsFor ((shouldRecoverMessage env st m ch).2).store ch m.thread_ts
        = msgsFor st.store ch m.thread_ts :=
  ⟨shouldRecover_accept_iff env st m ch,
   fun h => shouldRecover_marks env st m ch h.1 h.2.1 h.2.2.1 h.2.2.2.1 h.2.2.2.2.1 h.2.2.2.2.2,
   shouldRecover_msgsFor env st m ch⟩

/-- Claim C10 (confirmed): a buffered message's stored timestamp is the
wall-clock time at the moment `add_message` runs (the `now` argument; the
platform event's own timestamp is not even a parameter of `add_message`),
and — once the dedup/bot/text filters pass — the already-present test of
`_should_recover_message` rejects exactly when some stored message's
arrival timestamp equals the platform event timestamp. -/
theorem arrival_time_semantics (s : MessageStore) (ch : String) (th : Option String)
    (uid : Option String) (uname : String) (text : String) (appId : Option String) (now : Rat)
    (env : Env) (st : SysState) (m : HistMessage) (ch' : String)
    (h : msgId ch' m.ts ∉ st.processed ∧ m.bot_id = none ∧ m.subtype = none
         ∧ ¬ pyStrip m.text = "" ∧ ¬ m.user = env.botAppId) :
    msgsFor (addMessage s ch th uid uname text appId now) ch th
      = msgsFor s ch th
        ++ [{ user_id := uid, username := uname, text := text, timestamp := now,
              channel_id := ch, thread_ts := th, app_id := appId, ml_output := none }]
    ∧ ((shouldRecoverMessage env st m ch').1 = false
        ↔ ∃ sm ∈ msgsFor st.store ch' m.thread_ts, sm.timestamp = m.ts) := by
  refine ⟨msgsFor_addMessage s ch th uid uname text appId now, ?_⟩
  rw [← Bool.not_eq_true, shouldRecover_accept_iff]
  obtain ⟨h1, h2, h3, h4, h5⟩ := h
  simp [h1, h2, h3, h4, h5]

theorem arrival_time_semantics_witness :
    msgsFor (addMessage ⟨[], []⟩ "C" none (some "U") "u" "hi" none 5) "C" none
      = msgsFor ⟨[], []⟩ "C" none
        ++ [{ user_id := some "U", username := "u", text := "hi", timestamp := 5,
              channel_id := "C", thread_ts := none, app_id := none, ml_output := none }]
    ∧ ((shouldRecoverMessage envEx sysEmpty ⟨some "U", 3, "hi", none, none, none⟩ "C").1 = false
        ↔ ∃ sm ∈ msgsFor sysEmpty.store "C" none, sm.timestamp = 3) :=
  arrival_time_semantics ⟨[], []⟩ "C" none (some "U") "u" "hi" none 5
    envEx sysEmpty ⟨some "U", 3, "hi", none, none, none⟩ "C" (by decide)

theorem recoverToExisting_posted (env : Env) (st : SysState) (m : HistMessage)
    (ch : String) (now : Rat) :
    (recoverMessageToExistingBatch env st m ch now).posted = st.posted := rfl

theorem shouldRecover_posted (env : Env) (st : SysState) (m : HistMessage) (ch : String) :
    ((shouldRecoverMessage env st m ch).2).posted = st.posted := by
  simp only [shouldRecoverMessage]
  split_ifs <;> rfl

theorem immediateStep_posted (env : Env) (ch : String) (now : Rat) (acc : SysState)
    (m : HistMessage) :
    (immediateStep env ch now acc m).posted = acc.posted := by
  simp only [immediateStep]
  split_ifs
  · rw [recoverToExisting_posted, shouldRecover_posted]
  · rw [shouldRecover_posted]

theorem foldImmediate_posted (env : Env) (ch : String) (now : Rat) :
    ∀ (l : List HistMessage) (st : SysState),
      (l.foldl (immediateStep env ch now) st).posted = st.posted := by
  intro l
  induction l with
  | nil => intro st; rfl
  | cons m l' ih => intro st; rw [List.foldl_cons, ih, immediateStep_posted]

theorem checkImmediate_posted (env : Env) (st : SysState) (ch : String) (now : Rat)
    (resp : Option (List HistMessage)) :
    ((checkChannelImmediate env st ch now resp).2).posted = st.posted := by
  cases resp with
  | none => rfl
  | some l => exact foldImmediate_posted env ch now l.reverse st

theorem removed_after_update (s : MessageStore) (ch : String) (th : Option String)
    (r : String) :
    ∀ mm ∈ (removeMessages (updateMlOutput s ch th r) ch th).1, mm.ml_output = some r := by
  intro mm hmm
  have hrw : (removeMessages (updateMlOutput s ch th r) ch th).1
      = (msgsFor s ch th).map (fun m => { m with ml_output := some r }) := by
    show msgsFor (updateMlOutput s ch th r) ch th = _
    simp [updateMlOutput, msgsFor, threadsOf, alistGet_set_self]
  rw [hrw] at hmm
  obtain ⟨m0, -, he⟩ := List.mem_map.mp hmm
  rw [← he]

theorem processMessages_dispatch (st : SysState) (ch : String) (th : Option String)
    (msgs : List SlackMessage) (mlResult : Except String String) :
    msgsFor (processMessages st ch th msgs false mlResult).store ch th = []
    ∧ (∀ r, mlResult = Except.ok r →
        (processMessages st ch th msgs false mlResult).posted = st.posted ++ [(ch, th, r)])
    ∧ (∀ e, mlResult = Except.error e →
        (processMessages st ch th msgs false mlResult).posted
          = st.posted ++ [(ch, th, degradedText msgs.length)]) := by
  have hcond : ¬ (msgs.length = 1 ∧ (false : Bool) = true) := by simp
  refine ⟨?_, ?_, ?_⟩
  · simp only [processMessages, if_neg hcond]
    cases mlResult <;> simp [msgsFor_removeMessages_snd]
  · intro r hr
    subst hr
    simp [processMessages, if_neg hcond, postResponse]
  · intro e he
    subst he
    simp [processMessages, if_neg hcond, postResponse]

/-- Claim C3 (confirmed): a timer expiry whose snapshot is non-empty and
that reaches dispatch (the single-message job-action short-circuit does not
fire) always clears the mailbox entry for its key after the dispatch
attempt: on downstream success the textual result is recorded on the batch
and posted, on a raise the degraded placeholder is posted instead, and in
both cases the key holds no messages afterwards, so that batch can never be
dispatched again. -/
theorem dispatch_at_most_once (env : Env) (st : SysState) (ch : String) (th : Option String)
    (now : Rat) (resp : Option (List HistMessage)) (mlResult : Except String String)
    (hne : msgsFor st.store ch th ≠ []) :
    msgsFor (onTimerExpired env st ch th now resp false mlResult).store ch th = []
    ∧ (∀ r, mlResult = Except.ok r →
        (onTimerExpired env st ch th now resp false mlResult).posted
          = st.posted ++ [(ch, th, r)])
    ∧ (∀ e, mlResult = Except.error e →
        ∃ n, (onTimerExpired env st ch th now resp false mlResult).posted
          = st.posted ++ [(ch, th, degradedText n)])
    ∧ (∀ (s : MessageStore) (r : String),
        ∀ mm ∈ (removeMessages (updateMlOutput s ch th r) ch th).1, mm.ml_output = some r) := by
  simp only [onTimerExpired, getMessages_fst]
  rw [if_neg hne]
  have hposted :
      (checkChannelImmediate env { st with store := (getMessages st.store ch th).2 }
        ch now resp).2.posted = st.posted :=
    checkImmediate_posted env { st with store := (getMessages st.store ch th).2 } ch now resp
  rw [hposted]
  refine ⟨(processMessages_dispatch _ ch th _ mlResult).1, ?_, ?_,
    fun s r => removed_after_update s ch th r⟩
  · intro r hr
    rw [(processMessages_dispatch _ ch th _ mlResult).2.1 r hr]
  · intro e he
    exact ⟨_, by rw [(processMessages_dispatch _ ch th _ mlResult).2.2 e he]⟩

theorem dispatch_at_most_once_witness :
    msgsFor (onTimerExpired envEx sysOneMsg "C" none 0 (some []) false
        (Except.ok "done")).store "C" none = []
    ∧ (onTimerExpired envEx sysOneMsg "C" none 0 (some []) false
        (Except.ok "done")).posted = sysOneMsg.posted ++ [("C", none, "done")] := by
  have h := dispatch_at_most_once envEx sysOneMsg "C" none 0 (some [])
    (Except.ok "done") (by decide)
  exact ⟨h.1, h.2.1 "done" rfl⟩
